import Mathlib

/-!
Shallow embedding of the credential-lifecycle and sync-orchestration core of
the linkedin-analytics-dashboard repository, together with proofs checking the
natural-language specification against it.

Sources embedded:
- amplify/functions/linkedin-auth/tokenService.ts  (cipher, credential store,
  token refresh-ahead logic)
- amplify/data/resource.ts, session service part (validateSession, getSession,
  deleteSession)
- amplify/functions/linkedin-sync/handler.ts       (sync batch: per-record
  cipher, record enumeration, per-principal isolation, Sync Log status,
  analytics endpoint fallback, HTTP handler response)

Conventions: machine timestamps are `Int` (epoch milliseconds), byte buffers
are `List Nat` (each byte < 256 where it matters, stated as hypotheses),
JavaScript strings are `List Char` where character-level processing matters
(hex codecs, trimming, splitting on a colon) and `String` where only identity
matters (ids, tokens, messages). Fallible operations return `Except String`.
The AES-256-CBC block operation itself lives in the Node crypto library, not
in this repository; it is abstracted as a pair of functions `E D : key → iv →
data → data` and the library correctness `D k iv (E k iv t) = t` is a
hypothesis where needed. Everything the repository itself does to the data
(hex encoding, IV prefixing, colon splitting, key trimming and length
validation) is embedded faithfully. Remote HTTP endpoints (the OAuth token
endpoint and the two analytics endpoints) are modelled as oracle arguments
giving the outcome of the one call the code makes; DynamoDB tables are
modelled as the in-memory values the code reads and writes, at the decrypted
record level for the credential store (getTokens decrypts on read and
storeTokens and updateTokensAfterRefresh encrypt on write, and the cipher is
embedded separately, so composing them yields the plaintext-level view used
here).
-/

namespace LinkedInCore

/-! ## Definitions -/

/-! ### Hex codec, as used by Buffer.from with hex encoding -/

/-- Lower-case hex digit for a nibble, as produced by Node buf.toString. -/
def hexDigitChar (n : Nat) : Char :=
  if n = 0 then '0' else if n = 1 then '1' else if n = 2 then '2'
  else if n = 3 then '3' else if n = 4 then '4' else if n = 5 then '5'
  else if n = 6 then '6' else if n = 7 then '7' else if n = 8 then '8'
  else if n = 9 then '9' else if n = 10 then 'a' else if n = 11 then 'b'
  else if n = 12 then 'c' else if n = 13 then 'd' else if n = 14 then 'e'
  else 'f'

/-- Hex value of a character; Node accepts both cases. -/
def hexVal (c : Char) : Option Nat :=
  if c = '0' then some 0 else if c = '1' then some 1 else if c = '2' then some 2
  else if c = '3' then some 3 else if c = '4' then some 4 else if c = '5' then some 5
  else if c = '6' then some 6 else if c = '7' then some 7 else if c = '8' then some 8
  else if c = '9' then some 9 else if c = 'a' then some 10 else if c = 'b' then some 11
  else if c = 'c' then some 12 else if c = 'd' then some 13 else if c = 'e' then some 14
  else if c = 'f' then some 15 else if c = 'A' then some 10 else if c = 'B' then some 11
  else if c = 'C' then some 12 else if c = 'D' then some 13 else if c = 'E' then some 14
  else if c = 'F' then some 15 else none

/-- Encoding of a byte buffer to lower-case hex, two characters per byte. -/
def hexEncode : List Nat → List Char
  | [] => []
  | b :: bs => hexDigitChar (b / 16) :: hexDigitChar (b % 16) :: hexEncode bs

/-- Decoding of a hex string to bytes with Node Buffer.from semantics:
decode pairs of hex characters and stop at the first invalid character or
incomplete trailing pair. -/
def hexDecodePairs : List Char → List Nat
  | c1 :: c2 :: rest =>
    match hexVal c1, hexVal c2 with
    | some h, some l => (16 * h + l) :: hexDecodePairs rest
    | _, _ => []
  | _ => []

/-- Whitespace trim from both ends, as JavaScript String.trim. -/
def trimChars (cs : List Char) : List Char :=
  ((cs.dropWhile Char.isWhitespace).reverse.dropWhile Char.isWhitespace).reverse

/-- Splitting a character list on every colon, as JavaScript split. -/
def splitOnColon : List Char → List (List Char)
  | [] => [[]]
  | c :: rest =>
    if c = ':' then [] :: splitOnColon rest
    else
      match splitOnColon rest with
      | [] => [[c]]
      | s :: ss => (c :: s) :: ss

/-! ### Cipher routines

TokenService variants (tokenService.ts encryptToken / decryptToken): trim the
configured key, hex-decode it, check for exactly 32 bytes with an explicit
error, then run AES-256-CBC. The blob format is hex(iv), a colon, then
hex(ciphertext). Sync-handler variants (linkedin-sync/handler.ts decryptToken
/ encryptToken): identical blob handling but the key is hex-decoded without
trimming and without an explicit length check; the Node crypto
createCipheriv / createDecipheriv call itself rejects keys that are not
exactly 32 bytes, which is modelled as the same length guard. `E` and `D` are
the abstract AES-256-CBC operations of the crypto library. -/

/-- Cipher operation type: key bytes, IV bytes, data bytes to data bytes. -/
abbrev CipherFn := List Nat → List Nat → List Nat → List Nat

/-- TokenService encryptToken: trim key, hex-decode, require 32 bytes, emit
hex(iv), a colon, then hex(ciphertext). -/
def encryptTokenTS (E : CipherFn) (key : List Char) (iv : List Nat)
    (token : List Nat) : Except String (List Char) :=
  let keyBuffer := hexDecodePairs (trimChars key)
  if keyBuffer.length ≠ 32 then .error ("Invalid key length")
  else .ok (hexEncode iv ++ ':' :: hexEncode (E keyBuffer iv token))

/-- TokenService decryptToken: split the blob on colons, take the first two
segments as IV hex and ciphertext hex (a missing second segment throws in
Buffer.from), trim the key, require 32 bytes, then decipher. -/
def decryptTokenTS (D : CipherFn) (key : List Char)
    (blob : List Char) : Except String (List Nat) :=
  match splitOnColon blob with
  | ivHex :: encryptedHex :: _ =>
    let iv := hexDecodePairs ivHex
    let encrypted := hexDecodePairs encryptedHex
    let keyBuffer := hexDecodePairs (trimChars key)
    if keyBuffer.length ≠ 32 then .error ("Invalid key length")
    else .ok (D keyBuffer iv encrypted)
  | _ => .error ("malformed ciphertext blob")

/-- Sync-handler encryptToken: same blob format, but the key is decoded
without trimming; the length guard is the crypto library rejecting keys that
are not 32 bytes. -/
def encryptTokenSync (E : CipherFn) (key : List Char) (iv : List Nat)
    (token : List Nat) : Except String (List Char) :=
  let keyBuffer := hexDecodePairs key
  if keyBuffer.length ≠ 32 then .error ("Invalid key length")
  else .ok (hexEncode iv ++ ':' :: hexEncode (E keyBuffer iv token))

/-- Sync-handler decryptToken: same blob splitting, key decoded without
trimming, length guard from the crypto library. -/
def decryptTokenSync (D : CipherFn) (key : List Char)
    (blob : List Char) : Except String (List Nat) :=
  match splitOnColon blob with
  | ivHex :: encryptedHex :: _ =>
    let iv := hexDecodePairs ivHex
    let encrypted := hexDecodePairs encryptedHex
    let keyBuffer := hexDecodePairs key
    if keyBuffer.length ≠ 32 then .error ("Invalid key length")
    else .ok (D keyBuffer iv encrypted)
  | _ => .error ("malformed ciphertext blob")

/-! ### Credential store (tokenService.ts), at the decrypted record level -/

/-- Token set returned by the OAuth token endpoint (LinkedInTokens interface
in tokenService.ts): access_token, expires_in seconds, optional rotated
refresh_token. -/
structure TokenSet where
  access_token : String
  expires_in : Int
  refresh_token : Option String
  deriving DecidableEq, Repr

/-- Credential record as read back through getTokens (decrypted in-memory
view of one LinkedInTokens row). -/
structure TokenRec where
  accessToken : String
  refreshToken : Option String
  expiresAt : Int
  lastRefreshed : Option Int
  createdAt : Int
  updatedAt : Int
  deriving DecidableEq, Repr

/-- Refresh-ahead skew used by both getValidAccessToken implementations:
five minutes in milliseconds. -/
def fiveMinutes : Int := 5 * 60 * 1000

/-- storeTokens: builds the full item written for a principal, with
expiresAt = now + expires_in * 1000; creates or overwrites the record. -/
def storeTokens (tokens : TokenSet) (now : Int) : TokenRec :=
  { accessToken := tokens.access_token
    refreshToken := tokens.refresh_token
    expiresAt := now + tokens.expires_in * 1000
    lastRefreshed := none
    createdAt := now
    updatedAt := now }

/-- updateTokensAfterRefresh: overwrites access token, expiresAt,
lastRefreshed and updatedAt; the refresh token is overwritten only when the
provider rotated it. -/
def updateTokensAfterRefresh (rec : TokenRec) (tokens : TokenSet)
    (now : Int) : TokenRec :=
  { rec with
    accessToken := tokens.access_token
    expiresAt := now + tokens.expires_in * 1000
    lastRefreshed := some now
    updatedAt := now
    refreshToken :=
      match tokens.refresh_token with
      | some rt => some rt
      | none => rec.refreshToken }

/-- getValidAccessToken (tokenService.ts): read the record; when expiresAt is
within five minutes of now, require a refresh token, call the remote
refresher (outcome supplied by the oracle argument), persist via
updateTokensAfterRefresh and return the new access token; otherwise return
the stored token unchanged. The result carries the returned token, the
backing record after the call, and the number of refresh calls performed. -/
def getValidAccessToken (store : Option TokenRec) (now : Int)
    (refreshOutcome : Except String TokenSet) :
    Except String (String × TokenRec × Nat) :=
  match store with
  | none => .error ("No tokens found for user")
  | some record =>
    if record.expiresAt - now < fiveMinutes then
      match record.refreshToken with
      | none => .error ("Token expired and no refresh token available")
      | some _ =>
        match refreshOutcome with
        | .error _ => .error ("Failed to refresh token - user may need to reconnect")
        | .ok newTokens =>
          .ok (newTokens.access_token,
            updateTokensAfterRefresh record newTokens now, 1)
    else .ok (record.accessToken, record, 0)

/-! ### Session service (amplify/data/resource.ts, session part) -/

/-- One UserSessions row. -/
structure Session where
  sessionId : String
  mondayUserId : String
  expiresAt : Int
  createdAt : Int
  deriving DecidableEq, Repr

/-- The sessions table: rows keyed by sessionId (first match wins, ids are
unique in DynamoDB). -/
def getItem (store : List Session) (sid : String) : Option Session :=
  store.find? (fun s => s.sessionId = sid)

/-- deleteSession: idempotent removal by id. -/
def deleteSession (store : List Session) (sid : String) : List Session :=
  store.filter (fun s => !(s.sessionId = sid))

/-- validateSession: absent gives null; present and now strictly past
expiresAt deletes the session and gives null; otherwise gives the bound
user id. Returns the result and the table afterwards. -/
def validateSession (store : List Session) (sid : String) (now : Int) :
    Option String × List Session :=
  match getItem store sid with
  | none => (none, store)
  | some item =>
    if item.expiresAt < now then (none, deleteSession store sid)
    else (some item.mondayUserId, store)

/-- getSession: returns the stored row whenever present; the source performs
no expiry check here. -/
def getSession (store : List Session) (sid : String) : Option Session :=
  getItem store sid

/-! ### Sync batch (linkedin-sync/handler.ts) -/

/-- In-memory token record as built by getAllTokenRecords (decrypted). -/
structure TokenRecord where
  mondayUserId : String
  linkedInId : Option String
  accessToken : String
  refreshToken : Option String
  expiresAt : Int
  profileFirstName : Option String
  profileLastName : Option String
  profileHeadline : Option String
  profilePicture : Option String
  deriving DecidableEq, Repr

/-- Raw DynamoDB item of the tokens table as seen by the scan loop, before
decryption; attribute access in the source is optional chaining. -/
structure RawItem where
  mondayUserId : Option String
  linkedInId : Option String
  accessToken : Option String
  refreshToken : Option String
  expiresAt : Option Int
  profileFirstName : Option String
  profileLastName : Option String
  profileHeadline : Option String
  profilePicture : Option String
  deriving DecidableEq, Repr

/-- Body of the per-item loop in getAllTokenRecords: decrypt the access token
(empty string when the attribute is missing), decrypt the refresh token only
when present; any decryption failure is the thrown error the catch block
swallows. `dec` is the decryption outcome for each stored ciphertext. -/
def parseRawItem (dec : String → Except String String) (item : RawItem) :
    Except String TokenRecord := do
  let at2 ← dec (item.accessToken.getD (""))
  let rt ← match item.refreshToken with
    | some s => Except.map some (dec s)
    | none => pure none
  pure
    { mondayUserId := item.mondayUserId.getD ("")
      linkedInId := item.linkedInId
      accessToken := at2
      refreshToken := rt
      expiresAt := item.expiresAt.getD 0
      profileFirstName := item.profileFirstName
      profileLastName := item.profileLastName
      profileHeadline := item.profileHeadline
      profilePicture := item.profilePicture }

/-- getAllTokenRecords: scan every item (pages flattened into one list; the
loop body is per item), pushing each successfully parsed record and logging
and skipping any item whose parsing throws. -/
def getAllTokenRecords (dec : String → Except String String)
    (items : List RawItem) : List TokenRecord :=
  items.filterMap (fun it => (parseRawItem dec it).toOption)

/-- JavaScript falsiness of an optional string: undefined or empty. -/
def jsFalsy (o : Option String) : Bool :=
  match o with
  | none => true
  | some s => s = ""

/-- JavaScript a-or-b on an optional string against a default, where the
empty string is falsy. -/
def jsOrStr (a : Option String) (b : String) : String :=
  match a with
  | some s => if s = "" then b else s
  | none => b

/-- Totals of one principal run of fetchMemberAnalytics, as used by the
orchestration loop for results and success details. -/
structure Totals where
  totalImpressions : Nat
  totalEngagements : Nat
  postCount : Nat
  deriving DecidableEq, Repr

/-- One element of the results array of syncAllUsers. -/
structure SyncResult where
  mondayUserId : String
  linkedInId : String
  success : Bool
  error : Option String
  impressions : Option Nat
  engagements : Option Nat
  deriving DecidableEq, Repr

/-- Per-principal step of the syncAllUsers loop. A record whose linkedInId is
JavaScript-falsy is recorded as an error without touching the network. For
the rest, `env r` is the combined outcome of getValidAccessToken,
fetchMemberAnalytics and storeAnalytics for that record: the try block
succeeds with totals or throws with a message; either way the loop records
one result and continues. -/
def processRecord (env : TokenRecord → Except String Totals)
    (r : TokenRecord) : SyncResult :=
  if jsFalsy r.linkedInId then
    { mondayUserId := r.mondayUserId, linkedInId := "", success := false
      error := some ("No LinkedIn ID"), impressions := none, engagements := none }
  else
    match env r with
    | .ok t =>
      { mondayUserId := r.mondayUserId, linkedInId := r.linkedInId.getD ("")
        success := true, error := none
        impressions := some t.totalImpressions, engagements := some t.totalEngagements }
    | .error m =>
      { mondayUserId := r.mondayUserId, linkedInId := r.linkedInId.getD ("")
        success := false, error := some m, impressions := none, engagements := none }

/-- Entries pushed onto the errors array, in record order. -/
def errorEntries (env : TokenRecord → Except String Totals)
    (records : List TokenRecord) : List String :=
  records.filterMap (fun r =>
    if jsFalsy r.linkedInId then some (r.mondayUserId ++ ": No LinkedIn ID")
    else
      match env r with
      | .ok _ => none
      | .error m => some (jsOrStr r.profileFirstName r.mondayUserId ++ ": " ++ m))

/-- Entries pushed onto the successDetails array, in record order. -/
def successEntries (env : TokenRecord → Except String Totals)
    (records : List TokenRecord) : List String :=
  records.filterMap (fun r =>
    if jsFalsy r.linkedInId then none
    else
      match env r with
      | .ok t =>
        some (jsOrStr r.profileFirstName r.mondayUserId ++ ": "
          ++ toString t.totalImpressions ++ " impressions, "
          ++ toString t.postCount ++ " posts")
      | .error _ => none)

/-- One SyncLog row. -/
structure SyncLogEntry where
  id : String
  syncJobId : String
  startedAt : Int
  completedAt : Option Int
  status : String
  triggerType : String
  totalUsers : Nat
  successCount : Nat
  errorCount : Nat
  errors : List String
  successDetails : List String
  deriving DecidableEq, Repr

/-- createSyncLog: initial row with status running and zero counts. -/
def createSyncLog (syncJobId triggerType : String) (now : Int) : SyncLogEntry :=
  { id := syncJobId, syncJobId := syncJobId, startedAt := now
    completedAt := none, status := "running", triggerType := triggerType
    totalUsers := 0, successCount := 0, errorCount := 0
    errors := [], successDetails := [] }

/-- updateSyncLog: the single terminal write of the run. -/
def updateSyncLog (log : SyncLogEntry) (status : String)
    (totalUsers successCount errorCount : Nat)
    (errors successDetails : List String) (now : Int) : SyncLogEntry :=
  { log with
    status := status, completedAt := some now
    totalUsers := totalUsers, successCount := successCount
    errorCount := errorCount, errors := errors
    successDetails := successDetails }

/-- Terminal status expression of syncAllUsers. -/
def syncStatus (successCount errorCount : Nat) : String :=
  if errorCount = 0 then ("completed")
  else if successCount = 0 then ("failed")
  else ("partial")

/-- Value computed by one syncAllUsers run: its final Sync Log row, the
summary counts it returns, and the per-record results array. -/
structure SyncSummary where
  finalLog : SyncLogEntry
  totalUsers : Nat
  successCount : Nat
  errorCount : Nat
  results : List SyncResult
  deriving DecidableEq, Repr

/-- syncAllUsers: create the log under a fresh job id, walk every record
independently, then count successes and failures, derive the terminal status
and write the log exactly once. -/
def syncAllUsers (uuid triggerType : String) (startNow endNow : Int)
    (env : TokenRecord → Except String Totals)
    (records : List TokenRecord) : SyncSummary :=
  let log0 := createSyncLog uuid triggerType startNow
  let results := records.map (processRecord env)
  let successCount := (results.filter (fun r => r.success)).length
  let errorCount := (results.filter (fun r => !r.success)).length
  let status := syncStatus successCount errorCount
  let finalLog := updateSyncLog log0 status records.length successCount
    errorCount (errorEntries env records) (successEntries env records) endNow
  { finalLog := finalLog, totalUsers := records.length
    successCount := successCount, errorCount := errorCount, results := results }

/-- Success response of the HTTP handler for a manual invocation. -/
structure HandlerResp where
  statusCode : Nat
  bodySuccess : Bool
  bodySyncJobId : String
  bodyTotalUsers : Nat
  bodySuccessCount : Nat
  bodyErrorCount : Nat
  deriving DecidableEq, Repr

/-- Manual-invocation success path of the handler: run syncAllUsers (which
draws the first random UUID for its Sync Log) and build the response body
whose syncJobId field is a second, separate random UUID draw. `supply n` is
the value of the n-th randomUUID call of the invocation. -/
def runHandler (supply : Nat → String) (triggerType : String)
    (startNow endNow : Int) (env : TokenRecord → Except String Totals)
    (records : List TokenRecord) : HandlerResp × SyncSummary :=
  let summary := syncAllUsers (supply 0) triggerType startNow endNow env records
  let resp : HandlerResp :=
    { statusCode := 200, bodySuccess := true, bodySyncJobId := supply 1
      bodyTotalUsers := summary.totalUsers
      bodySuccessCount := summary.successCount
      bodyErrorCount := summary.errorCount }
  (resp, summary)

/-! ### Analytics fetch with endpoint fallback (fetchMemberPosts) -/

/-- Normalized post shape returned by fetchMemberPosts. -/
structure LinkedInPost where
  id : String
  created : Option Int
  text : Option String
  deriving DecidableEq, Repr

/-- One element of the posts API response. -/
structure PostElem where
  id : String
  createdAt : Option Int
  commentary : Option String
  articleTitle : Option String
  deriving DecidableEq, Repr

/-- One element of the shares API response. -/
structure ShareElem where
  activity : Option String
  createdTime : Option Int
  text : Option String
  deriving DecidableEq, Repr

/-- Outcome of one linkedInApiRequest call: the promise either rejects
(network error or unparseable body) or resolves with a status code and an
optional elements array. -/
inductive ApiOutcome (α : Type) where
  | reject (msg : String)
  | respond (statusCode : Nat) (elements : Option (List α))
  deriving DecidableEq, Repr

/-- JavaScript a-or-b on two optional strings, empty string falsy. -/
def jsOrOpt (a b : Option String) : Option String :=
  match a with
  | some s => if s = "" then b else some s
  | none => b

/-- Date-window filter used by both endpoint branches: createdAt (or zero
when absent) between startMs and endMs inclusive. -/
def inRange (startMs endMs : Int) (t : Option Int) : Bool :=
  decide (startMs ≤ t.getD 0 ∧ t.getD 0 ≤ endMs)

/-- Mapping of a posts API element to the normalized shape. -/
def mapPost (p : PostElem) : LinkedInPost :=
  { id := p.id, created := p.createdAt
    text := jsOrOpt p.commentary p.articleTitle }

/-- Mapping of a shares API element to the normalized shape. -/
def mapShare (s : ShareElem) : LinkedInPost :=
  { id := s.activity.getD (""), created := s.createdTime, text := s.text }

/-- Shares fallback branch of fetchMemberPosts: a rejected request propagates
as the failure of the whole fetch; a 200 with an elements array is filtered
by date, mapped, and stripped of posts with falsy ids; anything else returns
the empty list. -/
def processShares (fallback : ApiOutcome ShareElem) (startMs endMs : Int) :
    Except String (List LinkedInPost) :=
  match fallback with
  | .reject m => .error m
  | .respond code elems =>
    match elems with
    | some es =>
      if code = 200 then
        .ok (((es.filter (fun s => inRange startMs endMs s.createdTime)).map
          mapShare).filter (fun p => !(p.id = "")))
      else .ok []
    | none => .ok []

/-- Primary branch result of fetchMemberPosts for a 200 response with an
elements array: filter by the date window, then normalize. -/
def primaryPosts (es : List PostElem) (startMs endMs : Int) : List LinkedInPost :=
  (es.filter (fun p => inRange startMs endMs p.createdAt)).map mapPost

/-- fetchMemberPosts: try the posts API; only a 200 response carrying an
elements array is used (filtered by date and mapped); every other outcome of
the primary call, including a rejected request caught by the try block and
any non-200 status, falls through to the shares fallback. -/
def fetchMemberPosts (primary : ApiOutcome PostElem)
    (fallback : ApiOutcome ShareElem) (startMs endMs : Int) :
    Except String (List LinkedInPost) :=
  match primary with
  | .reject _ => processShares fallback startMs endMs
  | .respond code elems =>
    match elems with
    | some es =>
      if code = 200 then .ok (primaryPosts es startMs endMs)
      else processShares fallback startMs endMs
    | none => processShares fallback startMs endMs

/-! ## Theorems -/

theorem hexVal_hexDigitChar (n : Nat) (h : n < 16) :
    hexVal (hexDigitChar n) = some n := by
  interval_cases n <;> decide

theorem hexDigitChar_ge16 (n : Nat) (h : 16 ≤ n) : hexDigitChar n = 'f' := by
  unfold hexDigitChar
  repeat rw [if_neg (by omega)]

theorem hexDigitChar_ne_colon (n : Nat) : hexDigitChar n ≠ ':' := by
  rcases Nat.lt_or_ge n 16 with h | h
  · interval_cases n <;> decide
  · rw [hexDigitChar_ge16 n h]; decide

theorem hexDecode_hexEncode (bs : List Nat) (h : ∀ b ∈ bs, b < 256) :
    hexDecodePairs (hexEncode bs) = bs := by
  induction bs with
  | nil => rfl
  | cons b bs ih =>
    have hb : b < 256 := h b (List.mem_cons_self b bs)
    have hhi : b / 16 < 16 := by omega
    have hlo : b % 16 < 16 := Nat.mod_lt _ (by omega)
    have hrest : ∀ x ∈ bs, x < 256 := fun x hx => h x (List.mem_cons_of_mem _ hx)
    simp only [hexEncode, hexDecodePairs, hexVal_hexDigitChar _ hhi,
      hexVal_hexDigitChar _ hlo, ih hrest]
    congr 1
    omega

theorem mem_hexEncode_ne_colon (bs : List Nat) : ∀ c ∈ hexEncode bs, c ≠ ':' := by
  induction bs with
  | nil => intro c hc; cases hc
  | cons b bs ih =>
    intro c hc
    simp only [hexEncode, List.mem_cons] at hc
    rcases hc with h1 | h2 | h3
    · rw [h1]; exact hexDigitChar_ne_colon _
    · rw [h2]; exact hexDigitChar_ne_colon _
    · exact ih c h3

theorem splitOnColon_append (a b : List Char) (ha : ∀ c ∈ a, c ≠ ':') :
    splitOnColon (a ++ ':' :: b) = a :: splitOnColon b := by
  induction a with
  | nil => simp [splitOnColon]
  | cons c cs ih =>
    have hc : c ≠ ':' := ha c (List.mem_cons_self c cs)
    have hcs : ∀ x ∈ cs, x ≠ ':' := fun x hx => ha x (List.mem_cons_of_mem _ hx)
    simp only [List.cons_append, splitOnColon, if_neg hc]
    rw [show cs.append (':' :: b) = cs ++ ':' :: b from rfl, ih hcs]

theorem splitOnColon_no_colon (b : List Char) (hb : ∀ c ∈ b, c ≠ ':') :
    splitOnColon b = [b] := by
  induction b with
  | nil => rfl
  | cons c cs ih =>
    have hc : c ≠ ':' := hb c (List.mem_cons_self c cs)
    have hcs : ∀ x ∈ cs, x ≠ ':' := fun x hx => hb x (List.mem_cons_of_mem _ hx)
    simp only [splitOnColon, if_neg hc, ih hcs]

theorem splitOnColon_blob (a b : List Char)
    (ha : ∀ c ∈ a, c ≠ ':') (hb : ∀ c ∈ b, c ≠ ':') :
    splitOnColon (a ++ ':' :: b) = [a, b] := by
  rw [splitOnColon_append a b ha, splitOnColon_no_colon b hb]

theorem encryptTokenTS_ok (E : CipherFn) (key : List Char) (iv token : List Nat)
    (hk : (hexDecodePairs (trimChars key)).length = 32) :
    encryptTokenTS E key iv token =
      .ok (hexEncode iv ++ ':' ::
        hexEncode (E (hexDecodePairs (trimChars key)) iv token)) := by
  unfold encryptTokenTS
  rw [if_neg (by omega)]

theorem decryptTokenTS_blob (D : CipherFn) (key : List Char)
    (ivHex ctHex : List Char)
    (hiv : ∀ c ∈ ivHex, c ≠ ':') (hct : ∀ c ∈ ctHex, c ≠ ':')
    (hk : (hexDecodePairs (trimChars key)).length = 32) :
    decryptTokenTS D key (ivHex ++ ':' :: ctHex) =
      .ok (D (hexDecodePairs (trimChars key)) (hexDecodePairs ivHex)
        (hexDecodePairs ctHex)) := by
  unfold decryptTokenTS
  rw [splitOnColon_blob ivHex ctHex hiv hct]
  simp only [if_neg (show ¬ (hexDecodePairs (trimChars key)).length ≠ 32 by omega)]

theorem hexEncode_injOn (xs ys : List Nat) (hx : ∀ b ∈ xs, b < 256)
    (hy : ∀ b ∈ ys, b < 256) (h : hexEncode xs = hexEncode ys) : xs = ys := by
  rw [← hexDecode_hexEncode xs hx, ← hexDecode_hexEncode ys hy, h]

theorem length_filter_partition {α : Type} (p : α → Bool) (l : List α) :
    (l.filter p).length + (l.filter (fun a => !(p a))).length = l.length := by
  induction l with
  | nil => rfl
  | cons x xs ih =>
    by_cases h : p x <;>
      simp only [List.filter_cons, h, Bool.not_true, Bool.not_false, if_pos,
        if_neg, List.length_cons, Bool.false_eq_true, ite_true, ite_false] <;>
      omega

theorem processRecord_falsy (env : TokenRecord → Except String Totals)
    (r : TokenRecord) (h : jsFalsy r.linkedInId = true) :
    (processRecord env r).success = false := by
  simp [processRecord, h]

theorem errorCount_ge_falsy (env : TokenRecord → Except String Totals)
    (records : List TokenRecord) :
    (records.filter (fun r => jsFalsy r.linkedInId)).length ≤
      ((records.map (processRecord env)).filter (fun r => !r.success)).length := by
  induction records with
  | nil => simp
  | cons r rs ih =>
    simp only [List.map_cons, List.filter_cons]
    by_cases h : jsFalsy r.linkedInId
    · rw [if_pos (by simpa using h),
        if_pos (by simp [processRecord_falsy env r (by simpa using h)])]
      simpa using ih
    · rw [if_neg (by simpa using h)]
      by_cases hs : (processRecord env r).success
      · rw [if_neg (by simp [hs])]
        exact ih
      · rw [if_pos (by simp [hs])]
        exact le_trans ih (by simp)

theorem syncAllUsers_counts (uuid triggerType : String) (startNow endNow : Int)
    (env : TokenRecord → Except String Totals) (records : List TokenRecord) :
    (syncAllUsers uuid triggerType startNow endNow env records).results.length
        = records.length ∧
    (syncAllUsers uuid triggerType startNow endNow env records).finalLog.totalUsers
        = records.length ∧
    (syncAllUsers uuid triggerType startNow endNow env records).finalLog.successCount
        + (syncAllUsers uuid triggerType startNow endNow env records).finalLog.errorCount
        = records.length ∧
    (records.filter (fun r => jsFalsy r.linkedInId)).length ≤
      (syncAllUsers uuid triggerType startNow endNow env records).finalLog.errorCount := by
  refine ⟨by simp [syncAllUsers], by simp [syncAllUsers, updateSyncLog, createSyncLog], ?_, ?_⟩
  · simp only [syncAllUsers, updateSyncLog, createSyncLog]
    rw [show ∀ l : List SyncResult,
        (l.filter (fun r => r.success)).length = (l.filter (fun r => SyncResult.success r)).length
      from fun l => rfl]
    calc ((records.map (processRecord env)).filter (fun r => SyncResult.success r)).length
          + ((records.map (processRecord env)).filter (fun r => !r.success)).length
        = (records.map (processRecord env)).length :=
          length_filter_partition (fun r => SyncResult.success r) _
      _ = records.length := by simp
  · simpa [syncAllUsers, updateSyncLog, createSyncLog] using
      errorCount_ge_falsy env records

/-- Claim C1: a sync run over N enumerated credential records of which K
lack a usable linkedInId processes all N records without aborting, records
exactly one result per record, and its final Sync Log satisfies
totalUsers = N, successCount + errorCount = N and errorCount ≥ K. The run
is a total function of the records and the per-record outcome oracle, so no
single record outcome can abort the batch. -/
theorem sync_isolation_counts (uuid triggerType : String) (startNow endNow : Int)
    (env : TokenRecord → Except String Totals) (records : List TokenRecord) :
    (syncAllUsers uuid triggerType startNow endNow env records).results.length
        = records.length ∧
    (syncAllUsers uuid triggerType startNow endNow env records).finalLog.totalUsers
        = records.length ∧
    (syncAllUsers uuid triggerType startNow endNow env records).finalLog.successCount
        + (syncAllUsers uuid triggerType startNow endNow env records).finalLog.errorCount
        = records.length ∧
    (records.filter (fun r => jsFalsy r.linkedInId)).length ≤
      (syncAllUsers uuid triggerType startNow endNow env records).finalLog.errorCount :=
  syncAllUsers_counts uuid triggerType startNow endNow env records

/-- Claim C2: the terminal Sync Log status of a run is completed exactly when
errorCount is zero, failed exactly when successCount is zero while
totalUsers is positive, and partial exactly when some records succeeded and
some failed. -/
theorem sync_status_table (uuid triggerType : String) (startNow endNow : Int)
    (env : TokenRecord → Except String Totals) (records : List TokenRecord) :
    ((syncAllUsers uuid triggerType startNow endNow env records).finalLog.status
        = "completed"
      ↔ (syncAllUsers uuid triggerType startNow endNow env records).finalLog.errorCount
        = 0) ∧
    ((syncAllUsers uuid triggerType startNow endNow env records).finalLog.status
        = "failed"
      ↔ (syncAllUsers uuid triggerType startNow endNow env records).finalLog.successCount
          = 0
        ∧ 0 < (syncAllUsers uuid triggerType startNow endNow env records).finalLog.totalUsers) ∧
    ((syncAllUsers uuid triggerType startNow endNow env records).finalLog.status
        = "partial"
      ↔ 0 < (syncAllUsers uuid triggerType startNow endNow env records).finalLog.successCount
        ∧ 0 < (syncAllUsers uuid triggerType startNow endNow env records).finalLog.errorCount) := by
  obtain ⟨-, htu, hsum, -⟩ :=
    syncAllUsers_counts uuid triggerType startNow endNow env records
  set run := syncAllUsers uuid triggerType startNow endNow env records with hrun
  have hst : run.finalLog.status = syncStatus run.finalLog.successCount run.finalLog.errorCount := by
    simp [hrun, syncAllUsers, updateSyncLog, createSyncLog, syncStatus]
  rw [hst, ← htu] at *
  unfold syncStatus
  by_cases he : run.finalLog.errorCount = 0
  · rw [if_pos he]
    refine ⟨by simp [he], ?_, ?_⟩
    · constructor
      · intro h; exact absurd h (by decide)
      · rintro ⟨hs, htu2⟩; omega
    · constructor
      · intro h; exact absurd h (by decide)
      · rintro ⟨-, he2⟩; omega
  · rw [if_neg he]
    by_cases hs : run.finalLog.successCount = 0
    · rw [if_pos hs]
      refine ⟨⟨fun h => absurd h (by decide), fun h => absurd h he⟩, ?_, ?_⟩
      · constructor
        · intro _; exact ⟨hs, by omega⟩
        · intro _; rfl
      · constructor
        · intro h; exact absurd h (by decide)
        · rintro ⟨hs2, -⟩; omega
    · rw [if_neg hs]
      refine ⟨⟨fun h => absurd h (by decide), fun h => absurd h he⟩, ?_, ?_⟩
      · constructor
        · intro h; exact absurd h (by decide)
        · rintro ⟨hs2, -⟩; exact absurd hs2 hs
      · constructor
        · intro _; omega
        · intro _; rfl

/-- Claim C3: for a credential record within the five-minute refresh window that
still holds a refresh token, and a refresh call answered with a fresh token
set, getValidAccessToken performs exactly one refresh call, persists the
refreshed set (new access token, expiresAt = now + expires_in seconds,
lastRefreshed = now), returns the new access token and never the stale one,
and an immediately subsequent call (token set valid for at least the skew
window) performs zero refresh calls. -/
theorem refresh_ahead (record : TokenRec) (tokens : TokenSet) (rt : String)
    (now : Int)
    (hexp : record.expiresAt - now < fiveMinutes)
    (hrt : record.refreshToken = some rt)
    (hfresh : fiveMinutes ≤ tokens.expires_in * 1000) :
    getValidAccessToken (some record) now (.ok tokens) =
      .ok (tokens.access_token, updateTokensAfterRefresh record tokens now, 1) ∧
    (updateTokensAfterRefresh record tokens now).expiresAt - now
        = tokens.expires_in * 1000 ∧
    (updateTokensAfterRefresh record tokens now).lastRefreshed = some now ∧
    (updateTokensAfterRefresh record tokens now).accessToken = tokens.access_token ∧
    (tokens.access_token ≠ record.accessToken →
      ∀ tok rec2 n2, getValidAccessToken (some record) now (.ok tokens)
          = .ok (tok, rec2, n2) → tok ≠ record.accessToken) ∧
    getValidAccessToken (some (updateTokensAfterRefresh record tokens now)) now
        (.ok tokens) =
      .ok (tokens.access_token, updateTokensAfterRefresh record tokens now, 0) := by
  have h1 : getValidAccessToken (some record) now (.ok tokens) =
      .ok (tokens.access_token, updateTokensAfterRefresh record tokens now, 1) := by
    simp [getValidAccessToken, if_pos hexp, hrt]
  have hupd : (updateTokensAfterRefresh record tokens now).expiresAt
      = now + tokens.expires_in * 1000 := rfl
  refine ⟨h1, by rw [hupd]; ring, rfl, rfl, ?_, ?_⟩
  · intro hne tok rec2 n2 heq
    rw [h1] at heq
    have h2 := Except.ok.inj heq
    have h3 : tokens.access_token = tok := congrArg Prod.fst h2
    rw [← h3]
    exact hne
  · have hcond : ¬ ((updateTokensAfterRefresh record tokens now).expiresAt - now
        < fiveMinutes) := by
      rw [hupd]; omega
    simp only [getValidAccessToken]
    rw [if_neg hcond]
    rfl

theorem refresh_ahead_witness :
    ((⟨"oldTok", some ("rt"), 120000, none, 0, 0⟩ : TokenRec).expiresAt - 0
        < fiveMinutes) ∧
    getValidAccessToken (some ⟨"oldTok", some ("rt"), 120000, none, 0, 0⟩) 0
        (.ok ⟨"newTok", 3600, none⟩) =
      .ok ("newTok",
        updateTokensAfterRefresh ⟨"oldTok", some ("rt"), 120000, none, 0, 0⟩
          ⟨"newTok", 3600, none⟩ 0, 1) :=
  ⟨by decide,
    (refresh_ahead ⟨"oldTok", some ("rt"), 120000, none, 0, 0⟩
      ⟨"newTok", 3600, none⟩ ("rt") 0 (by decide) rfl (by decide)).1⟩

/-- Claim C5: with a valid 32-byte key, decrypting an encrypted token recovers the
token exactly, and encrypting the same token under two different fresh IVs
produces two different ciphertext blobs. `E` and `D` are the crypto library
AES-256-CBC operations, assumed mutually inverse on this key and IV; all
blob construction and parsing is the embedded repository code. -/
theorem cipher_roundtrip_distinct_iv (E D : CipherFn) (key : List Char)
    (iv iv2 token : List Nat)
    (hk : (hexDecodePairs (trimChars key)).length = 32)
    (hiv : ∀ b ∈ iv, b < 256) (hiv2 : ∀ b ∈ iv2, b < 256)
    (hct : ∀ b ∈ E (hexDecodePairs (trimChars key)) iv token, b < 256)
    (hED : D (hexDecodePairs (trimChars key)) iv
      (E (hexDecodePairs (trimChars key)) iv token) = token)
    (hne : iv ≠ iv2) :
    (encryptTokenTS E key iv token).bind (decryptTokenTS D key) = .ok token ∧
    encryptTokenTS E key iv token ≠ encryptTokenTS E key iv2 token := by
  constructor
  · rw [encryptTokenTS_ok E key iv token hk]
    show decryptTokenTS D key _ = _
    rw [decryptTokenTS_blob D key _ _ (mem_hexEncode_ne_colon iv)
      (mem_hexEncode_ne_colon _) hk,
      hexDecode_hexEncode iv hiv, hexDecode_hexEncode _ hct, hED]
  · intro heq
    rw [encryptTokenTS_ok E key iv token hk,
      encryptTokenTS_ok E key iv2 token hk] at heq
    have hblob := Except.ok.inj heq
    have h1 := splitOnColon_blob (hexEncode iv)
      (hexEncode (E (hexDecodePairs (trimChars key)) iv token))
      (mem_hexEncode_ne_colon iv) (mem_hexEncode_ne_colon _)
    have h2 := splitOnColon_blob (hexEncode iv2)
      (hexEncode (E (hexDecodePairs (trimChars key)) iv2 token))
      (mem_hexEncode_ne_colon iv2) (mem_hexEncode_ne_colon _)
    rw [hblob, h2] at h1
    have hiveq : hexEncode iv2 = hexEncode iv := by
      injection h1
    exact hne (hexEncode_injOn iv iv2 hiv hiv2 hiveq.symm)

theorem cipher_roundtrip_distinct_iv_witness :
    (hexDecodePairs (trimChars (List.replicate 64 '0'))).length = 32 ∧
    (encryptTokenTS (fun _ _ d => d) (List.replicate 64 '0')
        (List.replicate 16 0) [104, 105]).bind
      (decryptTokenTS (fun _ _ d => d) (List.replicate 64 '0')) = .ok [104, 105] ∧
    encryptTokenTS (fun _ _ d => d) (List.replicate 64 '0')
        (List.replicate 16 0) [104, 105] ≠
      encryptTokenTS (fun _ _ d => d) (List.replicate 64 '0')
        (1 :: List.replicate 15 0) [104, 105] := by
  have h := cipher_roundtrip_distinct_iv (fun _ _ d => d) (fun _ _ d => d)
    (List.replicate 64 '0') (List.replicate 16 0) (1 :: List.replicate 15 0)
    [104, 105] (by decide) (by decide) (by decide) (by decide) rfl (by decide)
  exact ⟨by decide, h.1, h.2⟩

/-- Claim C7: evaluation of the two cipher implementations at the failing input,
a configured key with one leading space followed by 64 hex digits. The
tokenService routines trim the key before the 32-byte validation and both
encrypt and decrypt succeed; the sync-handler decryptToken hex-decodes the
untrimmed key (the leading space stops Node hex decoding at zero bytes) and
fails with the key-length error, so the sync batch cannot decrypt what the
token service encrypted. The claim that every encrypt/decrypt path trims the
key before length validation fails on the sync-handler path. -/
theorem sync_key_trim_divergence :
    (hexDecodePairs (trimChars (' ' :: List.replicate 64 '0'))).length = 32 ∧
    encryptTokenTS (fun _ _ d => d) (' ' :: List.replicate 64 '0')
        (List.replicate 16 0) [104] =
      .ok (hexEncode (List.replicate 16 0) ++ ':' :: hexEncode [104]) ∧
    decryptTokenTS (fun _ _ d => d) (' ' :: List.replicate 64 '0')
        (hexEncode (List.replicate 16 0) ++ ':' :: hexEncode [104]) = .ok [104] ∧
    decryptTokenSync (fun _ _ d => d) (' ' :: List.replicate 64 '0')
        (hexEncode (List.replicate 16 0) ++ ':' :: hexEncode [104]) =
      .error ("Invalid key length") ∧
    hexDecodePairs (' ' :: List.replicate 64 '0') = [] := by
  refine ⟨by decide, rfl, rfl, rfl, by decide⟩

/-- Claim C4 counterexample: the primary posts endpoint answers HTTP 500 — a
non-2xx status that is not 403 — and the fetch nevertheless falls back to
the shares endpoint and succeeds with its posts instead of failing with a
RemoteAnalyticsError, refuting the claim that the fallback happens exactly
on 403 and that any other non-2xx status fails the call. -/
theorem fallback_on_500_counterexample :
    fetchMemberPosts (.respond 500 (some []))
      (.respond 200 (some [⟨some ("urn:li:share:1"), some 5, some ("hi")⟩])) 0 10
      = .ok [⟨"urn:li:share:1", some 5, some ("hi")⟩] := rfl

/-- Claim C4 amended: the fetch falls back to the shares endpoint whenever the
posts endpoint does not deliver HTTP 200 together with an elements array —
on a caught request rejection and on every status other than 200, 403
included but not special; when the shares endpoint in turn does not deliver
200 with an elements array the fetch returns the empty list rather than
failing; the only failure is a rejected shares request, whose message
propagates; and a 200-with-elements primary response is used directly with
no fallback call. -/
theorem fallback_policy (code : Nat) (elems : Option (List PostElem))
    (fb : ApiOutcome ShareElem) (m : String) (es : List PostElem)
    (s e : Int)
    (h : code ≠ 200 ∨ elems = none) :
    fetchMemberPosts (.respond code elems) fb s e = processShares fb s e ∧
    fetchMemberPosts (.reject m) fb s e = processShares fb s e ∧
    (∀ (c2 : Nat) (el2 : Option (List ShareElem)), (c2 ≠ 200 ∨ el2 = none) →
      processShares (.respond c2 el2) s e = .ok []) ∧
    processShares (.reject m) s e = .error m ∧
    fetchMemberPosts (.respond 200 (some es)) fb s e =
      .ok (primaryPosts es s e) := by
  refine ⟨?_, rfl, ?_, rfl, rfl⟩
  · cases elems with
    | none => rfl
    | some es2 =>
      rcases h with h | h
      · simp only [fetchMemberPosts]
        rw [if_neg h]
      · cases h
  · intro c2 el2 h2
    cases el2 with
    | none => rfl
    | some es2 =>
      rcases h2 with h2 | h2
      · simp only [processShares]
        rw [if_neg h2]
      · cases h2

theorem fallback_policy_witness :
    ((500 : Nat) ≠ 200 ∨ (some ([] : List PostElem)) = none) ∧
    fetchMemberPosts (.respond 500 (some []))
        (.respond 404 (some [⟨some ("urn:li:share:2"), some 5, none⟩])) 0 10 =
      processShares (.respond 404 (some [⟨some ("urn:li:share:2"), some 5, none⟩])) 0 10 ∧
    processShares (.respond 404
        (some [⟨some ("urn:li:share:2"), some 5, none⟩])) 0 10 = .ok [] := by
  have h := fallback_policy 500 (some [])
    (.respond 404 (some [⟨some ("urn:li:share:2"), some 5, none⟩]))
    "boom" [] 0 10 (Or.inl (by decide))
  exact ⟨Or.inl (by decide), h.1,
    h.2.2.1 404 (some [⟨some ("urn:li:share:2"), some 5, none⟩]) (Or.inl (by decide))⟩

/-- Claim C6 counterexample: a session whose expiresAt equals the current time —
so expiresAt ≤ now — still validates (the source checks now strictly greater
than expiresAt), and getSession returns the stored record with no expiry
check at all, both refuting the claim that validate returns null for every
session with expiresAt ≤ now and that get performs the same expiry check. -/
theorem session_boundary_counterexample :
    (validateSession [⟨"s1", "u1", 100, 0⟩] ("s1") 100).1 = some ("u1") ∧
    getSession [⟨"s1", "u1", 100, 0⟩] ("s1") = some ⟨"s1", "u1", 100, 0⟩ := by
  exact ⟨rfl, rfl⟩

theorem getItem_deleteSession (store : List Session) (sid : String) :
    getItem (deleteSession store sid) sid = none := by
  induction store with
  | nil => rfl
  | cons s ss ih =>
    unfold getItem deleteSession at ih ⊢
    rw [List.filter_cons]
    by_cases h : s.sessionId = sid
    · rw [if_neg (by simp [h])]
      exact ih
    · rw [if_pos (by simp [h]), List.find?_cons_of_neg _ (by simp [h])]
      exact ih

/-- Claim C6 amended: validate returns null and deletes the session exactly for
sessions with expiresAt strictly below now; at expiresAt = now the session
still validates; a session validates iff now ≤ expiresAt; getSession
performs no expiry check and returns the stored record whenever present, so
after validate has observed an expired session a subsequent get returns null
only because the record was deleted. -/
theorem session_lazy_expiry (store : List Session) (sid : String) (now : Int)
    (item : Session) (hget : getItem store sid = some item) :
    (item.expiresAt < now →
      (validateSession store sid now).1 = none ∧
      (validateSession store sid now).2 = deleteSession store sid ∧
      getSession (validateSession store sid now).2 sid = none) ∧
    ((validateSession store sid now).1 = some item.mondayUserId ↔
      now ≤ item.expiresAt) := by
  constructor
  · intro hex
    have hv : validateSession store sid now = (none, deleteSession store sid) := by
      simp only [validateSession, hget]
      rw [if_pos hex]
    refine ⟨by rw [hv], by rw [hv], ?_⟩
    rw [hv]
    exact getItem_deleteSession store sid
  · simp only [validateSession, hget]
    by_cases hex : item.expiresAt < now
    · rw [if_pos hex]
      constructor
      · intro h; cases h
      · intro h; omega
    · rw [if_neg hex]
      constructor
      · intro _; omega
      · intro _; rfl

theorem session_lazy_expiry_witness :
    getItem [⟨"s1", "u1", 100, 0⟩] ("s1") = some ⟨"s1", "u1", 100, 0⟩ ∧
    ((⟨"s1", "u1", 100, 0⟩ : Session).expiresAt < 200 →
      (validateSession [⟨"s1", "u1", 100, 0⟩] ("s1") 200).1 = none ∧
      (validateSession [⟨"s1", "u1", 100, 0⟩] ("s1") 200).2 =
        deleteSession [⟨"s1", "u1", 100, 0⟩] ("s1") ∧
      getSession (validateSession [⟨"s1", "u1", 100, 0⟩] ("s1") 200).2 ("s1")
        = none) :=
  ⟨rfl, (session_lazy_expiry [⟨"s1", "u1", 100, 0⟩] "s1" 200
    ⟨"s1", "u1", 100, 0⟩ rfl).1⟩

/-- Claim C8 counterexample: both write operations set expiresAt to
now + expires_in seconds with no regard to the stored value, so a record
with a far-future expiry overwritten by a short-lived token set gets a
strictly smaller expiresAt, refuting unconditional monotonicity. -/
theorem expiry_decrease_counterexample :
    (updateTokensAfterRefresh ⟨"a", some ("r"), 10000000, none, 0, 0⟩
        ⟨"b", 1, none⟩ 0).expiresAt
      < (⟨"a", some ("r"), 10000000, none, 0, 0⟩ : TokenRec).expiresAt ∧
    (storeTokens ⟨"b", 1, none⟩ 0).expiresAt
      < (⟨"a", some ("r"), 10000000, none, 0, 0⟩ : TokenRec).expiresAt := by
  exact ⟨by decide, by decide⟩

/-- Claim C8 amended: every write sets expiresAt to exactly now + expires_in
seconds, regardless of the previous value, so expiresAt can decrease on an
overwrite; within the refresh-ahead path — where a refresh only happens when
the stored expiry is within the five-minute skew and the provider grants at
least the skew — the new expiresAt does not decrease. -/
theorem expiry_update_rule (rec : TokenRec) (tokens : TokenSet) (now : Int) :
    (updateTokensAfterRefresh rec tokens now).expiresAt
        = now + tokens.expires_in * 1000 ∧
    (storeTokens tokens now).expiresAt = now + tokens.expires_in * 1000 ∧
    (rec.expiresAt - now < fiveMinutes → fiveMinutes ≤ tokens.expires_in * 1000 →
      rec.expiresAt ≤ (updateTokensAfterRefresh rec tokens now).expiresAt) := by
  refine ⟨rfl, rfl, ?_⟩
  intro h1 h2
  have : (updateTokensAfterRefresh rec tokens now).expiresAt
      = now + tokens.expires_in * 1000 := rfl
  rw [this]
  have hfm : fiveMinutes = 300000 := rfl
  omega

theorem expiry_update_rule_witness :
    ((⟨"a", some ("r"), 120000, none, 0, 0⟩ : TokenRec).expiresAt - 0 < fiveMinutes) ∧
    (⟨"a", some ("r"), 120000, none, 0, 0⟩ : TokenRec).expiresAt ≤
      (updateTokensAfterRefresh ⟨"a", some ("r"), 120000, none, 0, 0⟩
        ⟨"b", 3600, none⟩ 0).expiresAt :=
  ⟨by decide, (expiry_update_rule ⟨"a", some ("r"), 120000, none, 0, 0⟩
    ⟨"b", 3600, none⟩ 0).2.2 (by decide) (by decide)⟩

/-- Claim C9: on the manual success path the handler builds the response body with
a second, independent randomUUID draw, while the Sync Log row of the run was
created and finalized under the first draw; whenever the two draws differ —
which fresh random UUIDs do — the returned syncJobId identifies no Sync Log
record of the run. -/
theorem handler_jobid_mismatch (supply : Nat → String) (triggerType : String)
    (startNow endNow : Int) (env : TokenRecord → Except String Totals)
    (records : List TokenRecord) (h : supply 0 ≠ supply 1) :
    (runHandler supply triggerType startNow endNow env records).1.bodySyncJobId
        = supply 1 ∧
    (runHandler supply triggerType startNow endNow env records).2.finalLog.id
        = supply 0 ∧
    (runHandler supply triggerType startNow endNow env records).1.bodySyncJobId
        ≠ (runHandler supply triggerType startNow endNow env records).2.finalLog.id := by
  refine ⟨rfl, rfl, ?_⟩
  have h1 : (runHandler supply triggerType startNow endNow env records).1.bodySyncJobId
      = supply 1 := rfl
  have h2 : (runHandler supply triggerType startNow endNow env records).2.finalLog.id
      = supply 0 := rfl
  rw [h1, h2]
  exact fun he => h he.symm

theorem handler_jobid_mismatch_witness :
    ((fun n => if n = 0 then ("a") else ("b")) : Nat → String) 0 ≠
      ((fun n => if n = 0 then ("a") else ("b")) : Nat → String) 1 ∧
    (runHandler (fun n => if n = 0 then ("a") else ("b")) ("manual") 0 0
        (fun _ => .ok ⟨0, 0, 0⟩) []).1.bodySyncJobId ≠
      (runHandler (fun n => if n = 0 then ("a") else ("b")) ("manual") 0 0
        (fun _ => .ok ⟨0, 0, 0⟩) []).2.finalLog.id :=
  ⟨by decide,
    (handler_jobid_mismatch (fun n => if n = 0 then ("a") else ("b")) ("manual")
      0 0 (fun _ => .ok ⟨0, 0, 0⟩) [] (by decide)).2.2⟩

/-- Claim C10: an enumerated item whose stored tokens fail to decrypt is skipped
by the scan loop: the parsed record list is exactly the lists from the
surrounding items, the scan continues past the bad item, and the whole sync
run — final Sync Log counts included — is identical to the run without the
bad item, so the excluded record contributes to none of totalUsers,
successCount or errorCount. -/
theorem bad_record_excluded (dec : String → Except String String)
    (pre post : List RawItem) (bad : RawItem)
    (hbad : (parseRawItem dec bad).toOption = none)
    (uuid triggerType : String) (startNow endNow : Int)
    (env : TokenRecord → Except String Totals) :
    getAllTokenRecords dec (pre ++ bad :: post) =
      getAllTokenRecords dec pre ++ getAllTokenRecords dec post ∧
    syncAllUsers uuid triggerType startNow endNow env
        (getAllTokenRecords dec (pre ++ bad :: post)) =
      syncAllUsers uuid triggerType startNow endNow env
        (getAllTokenRecords dec (pre ++ post)) := by
  have hsplit : getAllTokenRecords dec (pre ++ bad :: post) =
      getAllTokenRecords dec pre ++ getAllTokenRecords dec post := by
    unfold getAllTokenRecords
    rw [List.filterMap_append, List.filterMap_cons, hbad]
  have hsplit2 : getAllTokenRecords dec (pre ++ post) =
      getAllTokenRecords dec pre ++ getAllTokenRecords dec post := by
    unfold getAllTokenRecords
    rw [List.filterMap_append]
  exact ⟨hsplit, by rw [hsplit, hsplit2]⟩

theorem bad_record_excluded_witness :
    (parseRawItem (fun s => if s = "BAD" then .error ("boom") else .ok s)
      ⟨some ("u1"), some ("l1"), some ("BAD"), none, some 0,
        none, none, none, none⟩).toOption = none ∧
    getAllTokenRecords (fun s => if s = "BAD" then .error ("boom") else .ok s)
        [⟨some ("u1"), some ("l1"), some ("BAD"), none, some 0,
          none, none, none, none⟩] =
      getAllTokenRecords (fun s => if s = "BAD" then .error ("boom") else .ok s)
        [] ++
      getAllTokenRecords (fun s => if s = "BAD" then .error ("boom") else .ok s)
        [] :=
  ⟨rfl,
    (bad_record_excluded (fun s => if s = "BAD" then .error ("boom") else .ok s)
      [] [] ⟨some ("u1"), some ("l1"), some ("BAD"), none, some 0,
        none, none, none, none⟩ rfl ("j") ("manual") 0 0
      (fun _ => .ok ⟨0, 0, 0⟩)).1⟩

end LinkedInCore
